import Mathlib

/-!
Verification of the orchestration core of the example-go-template repository:
the `Example` domain entity (`internal/domain/example.go`), the in-memory
repository (`internal/repository`, `InMemoryExampleRepository`), the service
layer (`internal/service/example_service.go`), and the use-case layer
(`internal/usecase/example_usecase.go`).

Modelling conventions:
* Go `time.Time` instants are abstract `Nat` values; every operation that reads
  the clock takes the instant as an explicit `now` parameter.
* Go `(value, error)` returns become `Except`/`Option`; a `some`/`.error`
  models a non-nil Go error.
* Strings are handled at the character level; all inputs appearing in the
  claims are ASCII, where Go byte indexing/length and character
  indexing/length agree.
* The in-memory store is a `map[string]*Example`; it is modelled as the list
  of its entries in some enumeration order.  Go map iteration order is
  unspecified, so the iterating operation (`List`) is stated against an
  explicitly given enumeration order.
* `float64` fields of external metadata are abstracted (no claim depends on
  floating-point arithmetic); `map[string]interface dictionaries` are opaque
  association lists.
-/

/-- The `Example` aggregate from `internal/domain/example.go`. -/
structure Example where
  id : String
  name : String
  email : String
  age : Int
  createdAt : Nat
  updatedAt : Nat
  deriving DecidableEq, Repr

/-- Character class `[a-zA-Z0-9._%+-]` (local part of the domain email regex). -/
def isLocalChar (c : Char) : Bool :=
  c.isAlpha || c.isDigit || c == '.' || c == '_' || c == '%' || c == '+' || c == '-'

/-- Character class `[a-zA-Z0-9.-]` (domain part of the domain email regex). -/
def isDomainChar (c : Char) : Bool :=
  c.isAlpha || c.isDigit || c == '.' || c == '-'

/-- `isValidEmail` from `internal/domain/example.go`: the anchored regex
`local@domain.tld` with local in `[a-zA-Z0-9._%+-]+`, domain in
`[a-zA-Z0-9.-]+`, and a TLD of at least two letters.  The regex matches iff
the string splits at its first at-sign (the character classes exclude the
at-sign) and at the last dot after it (the TLD is letters-only, hence
dot-free), with all three segments well-formed. -/
def isValidEmail (email : String) : Bool :=
  let cs := email.toList
  let localPart := cs.takeWhile (fun c => c != '@')
  match cs.drop localPart.length with
  | '@' :: domPart =>
    let tldRev := domPart.reverse.takeWhile (fun c => c != '.')
    match domPart.reverse.drop tldRev.length with
    | '.' :: domRev =>
      !localPart.isEmpty && localPart.all isLocalChar &&
      !domRev.isEmpty && domRev.all isDomainChar &&
      decide (2 ≤ tldRev.length) && tldRev.all (fun c => c.isAlpha)
    | _ => false
  | _ => false

/-- Error cases of `validateExample` (domain-level field validation). -/
inductive DomainErr where
  | nameEmpty
  | nameTooLong
  | emailEmpty
  | emailInvalidFormat
  | ageNegative
  | ageTooHigh
  deriving DecidableEq, Repr

/-- `validateExample` from `internal/domain/example.go`: field checks in source
order; `some err` models a non-nil error. -/
def validateExample (name email : String) (age : Int) : Option DomainErr :=
  if name = "" then some .nameEmpty
  else if 100 < name.length then some .nameTooLong
  else if email = "" then some .emailEmpty
  else if !isValidEmail email then some .emailInvalidFormat
  else if age < 0 then some .ageNegative
  else if 150 < age then some .ageTooHigh
  else none

/-- `NewExample`: validated constructor; `createdAt` and `updatedAt` are both
set to the construction instant. -/
def NewExample (id name email : String) (age : Int) (now : Nat) :
    Except DomainErr Example :=
  match validateExample name email age with
  | some err => .error err
  | none =>
    .ok { id := id, name := name, email := email, age := age,
          createdAt := now, updatedAt := now }

/-- `Example.Update`: re-validates, then overwrites name/email/age and
refreshes `updatedAt`; `createdAt` is untouched.  On a validation error
nothing is mutated (the Go method returns before assigning any field). -/
def Example.update (e : Example) (name email : String) (age : Int) (now : Nat) :
    Except DomainErr Example :=
  match validateExample name email age with
  | some err => .error err
  | none =>
    .ok { e with name := name, email := email, age := age, updatedAt := now }

/-- Repository errors distinguished by the core (`internal/repository`). -/
inductive RepoErr where
  | notFound
  | alreadyExists
  deriving DecidableEq, Repr

/-- The in-memory repository state: the entries of the `map[string]*Example`
in some enumeration order. -/
abbrev RepoState := List Example

/-- `InMemoryExampleRepository.Create`: rejects an id collision, then an email
collision, then stores a copy of the record. -/
def repoCreate (s : RepoState) (e : Example) : Except RepoErr RepoState :=
  if s.any (fun o => o.id == e.id) then .error .alreadyExists
  else if s.any (fun o => o.email == e.email) then .error .alreadyExists
  else .ok (s ++ [e])

/-- `InMemoryExampleRepository.GetByID`: map lookup, returning a copy. -/
def repoGetByID (s : RepoState) (id : String) : Except RepoErr Example :=
  match s.find? (fun o => o.id == id) with
  | some e => .ok e
  | none => .error .notFound

/-- `InMemoryExampleRepository.GetByEmail`: linear scan for the email. -/
def repoGetByEmail (s : RepoState) (email : String) : Except RepoErr Example :=
  match s.find? (fun o => o.email == email) with
  | some e => .ok e
  | none => .error .notFound

/-- `InMemoryExampleRepository.Update`: requires the id to exist; when the
email changes, rejects a collision with a different record; otherwise replaces
the stored record. -/
def repoUpdate (s : RepoState) (e : Example) : Except RepoErr RepoState :=
  match s.find? (fun o => o.id == e.id) with
  | none => .error .notFound
  | some existing =>
    if existing.email != e.email &&
        s.any (fun o => o.id != e.id && o.email == e.email) then
      .error .alreadyExists
    else
      .ok (s.map (fun o => if o.id == e.id then e else o))

/-- `InMemoryExampleRepository.Delete`: requires the id to exist, then removes
the entry from the map. -/
def repoDelete (s : RepoState) (id : String) : Except RepoErr RepoState :=
  if s.any (fun o => o.id == id) then .ok (s.filter (fun o => o.id != id))
  else .error .notFound

/-- `InMemoryExampleRepository.Count`: size of the map. -/
def repoCount (s : RepoState) : Nat := s.length

/-- `InMemoryExampleRepository.List`: clamps the slice bounds and returns the
page `data[start:stop]`.  A negative `start` with `start < stop` would make the
Go slice expression panic, modelled as `none` (unreachable from the service
layer, which clamps `offset` to be nonnegative). -/
def repoList (s : RepoState) (limit offset : Int) : Option (List Example) :=
  let n : Int := s.length
  let start := if offset > n then n else offset
  let stop := if start + limit > n then n else start + limit
  if start ≥ stop then some []
  else if start < 0 then none
  else some ((s.drop start.toNat).take (stop - start).toNat)

/-- Concatenation of the pages at offsets `offset, offset+limit, ...`
(`steps` consecutive `List` calls), all against one fixed enumeration order
of the store. -/
def collectPages (s : RepoState) (limit : Nat) : Nat → Nat → List Example
  | _, 0 => []
  | offset, steps + 1 =>
    ((repoList s (limit : Int) (offset : Int)).getD []) ++
      collectPages s limit (offset + limit) steps

/-- All keys in the list are pairwise distinct (Bool form, for `decide`). -/
def uniqueKeys : List String → Bool
  | [] => true
  | k :: rest => rest.all (fun o => o != k) && uniqueKeys rest

/-- The repository invariant: ids are pairwise distinct (structurally true of
the Go map) and emails are pairwise distinct (the uniqueness contract). -/
def RepoInv (s : RepoState) : Bool :=
  uniqueKeys (s.map (fun e => e.id)) && uniqueKeys (s.map (fun e => e.email))

/-- Run a sequence of repository `Create` calls, returning the final state and
how many of the calls succeeded. -/
def runCreates (s : RepoState) : List Example → RepoState × Nat
  | [] => (s, 0)
  | e :: rest =>
    match repoCreate s e with
    | .ok s' => let p := runCreates s' rest; (p.1, p.2 + 1)
    | .error _ => runCreates s rest

/-- Business-rule rejections of `ValidateExampleBusinessRules`
(`internal/service/example_service.go`). -/
inductive BizErr where
  | profanityDetected
  | corporateEmailUnderage
  | vipDomainUnderage
  deriving DecidableEq, Repr

/-- The fixed name block-list of `containsProfanity`. -/
def profanityList : List String := ["badword1", "badword2"]

/-- The fixed corporate domain list of `isCorporateEmail`. -/
def corporateDomains : List String := ["@corp.com", "@enterprise.com"]

/-- The fixed VIP domain list of `isVIPDomain`. -/
def vipDomains : List String := ["@vip.com", "@premium.com"]

/-- The Go suffix test used by `isCorporateEmail`/`isVIPDomain`:
`len(email) >= len(d) && email[len(email)-len(d):] == d`, at character level
(the domain constants and all claimed inputs are ASCII). -/
def goHasSuffix (email dom : String) : Bool :=
  let e := email.toList
  let d := dom.toList
  decide (d.length ≤ e.length) && e.drop (e.length - d.length) == d

/-- `containsProfanity`: case-sensitive exact match against the block-list. -/
def containsProfanity (name : String) : Bool :=
  profanityList.any (fun w => name == w)

/-- `isCorporateEmail`: the email ends with a corporate domain suffix. -/
def isCorporateEmail (email : String) : Bool :=
  corporateDomains.any (fun d => goHasSuffix email d)

/-- `isVIPDomain`: the email ends with a VIP domain suffix. -/
def isVIPDomain (email : String) : Bool :=
  vipDomains.any (fun d => goHasSuffix email d)

/-- `ValidateExampleBusinessRules`: the three rules in source order, first
failure wins. -/
def ValidateExampleBusinessRules (name email : String) (age : Int) : Option BizErr :=
  if containsProfanity name then some .profanityDetected
  else if isCorporateEmail email && decide (age < 18) then some .corporateEmailUnderage
  else if isVIPDomain email && decide (age < 21) then some .vipDomainUnderage
  else none

/-- AppError codes produced by the service layer (`internal/errs` codes, with
the wrapped cause kept where the claims depend on it). -/
inductive AppErr where
  | invalidID
  | invalidName
  | invalidEmail
  | invalidAge
  | businessLogicFail (r : BizErr)
  | invalidInput (d : DomainErr)
  | exampleAlreadyExists
  | exampleNotFound
  | databaseError
  deriving DecidableEq, Repr

/-- `mapRepositoryError`: repository errors to AppError codes (the in-memory
backend produces only `notFound`/`alreadyExists`). -/
def mapRepositoryError : RepoErr → AppErr
  | .notFound => .exampleNotFound
  | .alreadyExists => .exampleAlreadyExists

/-- The scanning loop of `isValidEmailFormat`: walks the characters keeping
the index of the at-sign (`none` while unseen) and of the most recent dot;
a second at-sign aborts the whole check (Go returns `false` from the loop),
modelled by the outer `none`. -/
def scanAtDot : List Char → Nat → Option Nat → Option Nat →
    Option (Option Nat × Option Nat)
  | [], _, atIdx, dotIdx => some (atIdx, dotIdx)
  | c :: rest, i, atIdx, dotIdx =>
    if c = '@' then
      match atIdx with
      | some _ => none
      | none => scanAtDot rest (i + 1) (some i) dotIdx
    else if c = '.' then scanAtDot rest (i + 1) atIdx (some i)
    else scanAtDot rest (i + 1) atIdx dotIdx

/-- `isValidEmailFormat` (service layer): length at least 5, a unique at-sign
at a positive index, a last dot more than one past it and not in final
position. -/
def isValidEmailFormat (email : String) : Bool :=
  let cs := email.toList
  if cs.length < 5 then false
  else
    match scanAtDot cs 0 none none with
    | none => false
    | some (some ai, some di) =>
      decide (0 < ai) && decide (ai + 1 < di) && decide (di < cs.length - 1)
    | some _ => false

/-- `validateInput` (service layer): name presence and length bounds, email
presence and format, age bounds — in source order, with the AppError code of
each failure. -/
def validateInput (name email : String) (age : Int) : Option AppErr :=
  if name = "" then some .invalidName
  else if name.length < 1 || 100 < name.length then some .invalidName
  else if email = "" then some .invalidEmail
  else if !isValidEmailFormat email then some .invalidEmail
  else if age < 0 || 150 < age then some .invalidAge
  else none

/-- `generateExampleID`: `Sprintf("ex_%s_%d", email[:3], len(name))`.  The
byte slice `email[:3]` is modelled as the first three characters (callers only
reach this after `validateInput`, and all claimed inputs are ASCII). -/
def generateExampleID (name email : String) : String :=
  "ex_" ++ String.mk (email.toList.take 3) ++ "_" ++ toString name.length

/-- Service `CreateExample`: input validation, business rules, deterministic
id generation, entity construction, best-effort email pre-check, then the
repository insert.  The returned state is the repository state after the call
(unchanged on every error path). -/
def CreateExample (s : RepoState) (name email : String) (age : Int) (now : Nat) :
    Except AppErr Example × RepoState :=
  match validateInput name email age with
  | some err => (.error err, s)
  | none =>
    match ValidateExampleBusinessRules name email age with
    | some r => (.error (.businessLogicFail r), s)
    | none =>
      let id := generateExampleID name email
      match NewExample id name email age now with
      | .error d => (.error (.invalidInput d), s)
      | .ok ex =>
        match repoGetByEmail s email with
        | .ok _ => (.error .exampleAlreadyExists, s)
        | .error _ =>
          match repoCreate s ex with
          | .error re => (.error (mapRepositoryError re), s)
          | .ok s' => (.ok ex, s')

/-- Service `GetExampleByID`: rejects an empty id, otherwise maps the
repository lookup. -/
def GetExampleByID (s : RepoState) (id : String) : Except AppErr Example :=
  if id = "" then .error .invalidID
  else
    match repoGetByID s id with
    | .ok e => .ok e
    | .error re => .error (mapRepositoryError re)

/-- Service `GetExampleByEmail`: rejects an empty email, otherwise maps the
repository lookup. -/
def GetExampleByEmail (s : RepoState) (email : String) : Except AppErr Example :=
  if email = "" then .error .invalidEmail
  else
    match repoGetByEmail s email with
    | .ok e => .ok e
    | .error re => .error (mapRepositoryError re)

/-- `checkEmailConflict`: when the email changes, a successful lookup of
another owner of the new email is a conflict. -/
def checkEmailConflict (s : RepoState) (ex : Example) (email : String) :
    Option AppErr :=
  if ex.email != email then
    match repoGetByEmail s email with
    | .ok existing =>
      if existing.id != ex.id then some .exampleAlreadyExists else none
    | .error _ => none
  else none

/-- `updateAndSaveExample`: mutate the (defensively copied) entity through the
validated domain update, then persist it. -/
def updateAndSaveExample (s : RepoState) (ex : Example) (name email : String)
    (age : Int) (now : Nat) : Except AppErr Example × RepoState :=
  match ex.update name email age now with
  | .error d => (.error (.invalidInput d), s)
  | .ok ex' =>
    match repoUpdate s ex' with
    | .error re => (.error (mapRepositoryError re), s)
    | .ok s' => (.ok ex', s')

/-- Service `UpdateExample`: id presence, input validation, business rules,
load of the existing record, email-conflict check, then update-and-save. -/
def UpdateExample (s : RepoState) (id name email : String) (age : Int) (now : Nat) :
    Except AppErr Example × RepoState :=
  if id = "" then (.error .invalidID, s)
  else
    match validateInput name email age with
    | some err => (.error err, s)
    | none =>
      match ValidateExampleBusinessRules name email age with
      | some r => (.error (.businessLogicFail r), s)
      | none =>
        match repoGetByID s id with
        | .error re => (.error (mapRepositoryError re), s)
        | .ok ex =>
          match checkEmailConflict s ex email with
          | some err => (.error err, s)
          | none => updateAndSaveExample s ex name email age now

/-- External-collaborator errors (`internal/repository/external_example_api.go`). -/
inductive ApiErr where
  | unavailable
  | timeout
  deriving DecidableEq, Repr

/-- `ExternalExampleData` (external API payload).  The `float64` score is
abstracted to `Int` and the metadata map to an association list: no claim
depends on their values, only on whether the payload is attached. -/
structure ExternalExampleData where
  externalId : String
  metadata : List (String × String)
  score : Int
  deriving DecidableEq, Repr

/-- The `map[string]interface dictionary` returned by `EnrichExample`,
abstracted to an association list. -/
abbrev Enrichment := List (String × String)

/-- Outcome of one `GetExampleData` call: `.error` is a non-nil Go error,
`.ok none` a nil error with a nil pointer result. -/
abbrev FetchOutcome := Except ApiErr (Option ExternalExampleData)

/-- Outcome of one `EnrichExample` call. -/
abbrev EnrichOutcome := Except ApiErr (Option Enrichment)

/-- `ExampleWithMetadata` from the use-case layer. -/
structure ExampleWithMetadata where
  entity : Example
  externalData : Option ExternalExampleData
  enrichment : Option Enrichment
  deriving DecidableEq, Repr

/-- The attachment rule for the fetched external data: applied only when the
call returned a nil error and a non-nil value (`extErr == nil && externalData != nil`). -/
def appliedFetch : FetchOutcome → Option ExternalExampleData
  | .ok (some d) => some d
  | _ => none

/-- The attachment rule for the enrichment map (`enrichErr == nil && enrichmentData != nil`). -/
def appliedEnrich : EnrichOutcome → Option Enrichment
  | .ok (some m) => some m
  | _ => none

/-- `enrichExample` (use-case layer): both external calls are awaited and
each outcome is attached independently; the function returns a nil error
unconditionally.  The two call outcomes are the model of the two awaited
goroutine results. -/
def enrichExample (e : Example) (fetch : FetchOutcome) (enr : EnrichOutcome) :
    Except ApiErr ExampleWithMetadata :=
  .ok { entity := e, externalData := appliedFetch fetch, enrichment := appliedEnrich enr }

/-- Use-case errors: the two sentinel wrappers of the use-case layer plus
propagated service/API errors. -/
inductive UCErr where
  | externalService
  | useCaseValidation
  | svc (e : AppErr)
  | api (e : ApiErr)
  deriving DecidableEq, Repr

/-- Use-case `GetExample`: service lookup, then enrichment (whose always-nil
error would be propagated). -/
def GetExample (s : RepoState) (id : String) (fetch : FetchOutcome)
    (enr : EnrichOutcome) : Except UCErr ExampleWithMetadata :=
  match GetExampleByID s id with
  | .error e => .error (.svc e)
  | .ok ex =>
    match enrichExample ex fetch enr with
    | .error a => .error (.api a)
    | .ok v => .ok v

/-- Use-case `GetExampleByEmail`. -/
def GetExampleByEmailUC (s : RepoState) (email : String) (fetch : FetchOutcome)
    (enr : EnrichOutcome) : Except UCErr ExampleWithMetadata :=
  match GetExampleByEmail s email with
  | .error e => .error (.svc e)
  | .ok ex =>
    match enrichExample ex fetch enr with
    | .error a => .error (.api a)
    | .ok v => .ok v

/-- The per-element step of use-case `ListExamples`: on an enrichment error
the element falls back to bare entity data. -/
def listEnrichStep (e : Example) (fetch : FetchOutcome) (enr : EnrichOutcome) :
    ExampleWithMetadata :=
  match enrichExample e fetch enr with
  | .ok v => v
  | .error _ => { entity := e, externalData := none, enrichment := none }

/-- Use-case `ValidateAndCreateExample`: the external validation call decides
between the external-service failure (call errored), the use-case validation
failure (call returned false), and the create path with best-effort
enrichment (whose failure would fall back to the bare entity). -/
def ValidateAndCreateExample (s : RepoState) (validateOutcome : Except ApiErr Bool)
    (name email : String) (age : Int) (now : Nat) (fetch : FetchOutcome)
    (enr : EnrichOutcome) : Except UCErr ExampleWithMetadata × RepoState :=
  match validateOutcome with
  | .error _ => (.error .externalService, s)
  | .ok false => (.error .useCaseValidation, s)
  | .ok true =>
    match CreateExample s name email age now with
    | (.error e, s') => (.error (.svc e), s')
    | (.ok ex, s') =>
      match enrichExample ex fetch enr with
      | .error _ =>
        (.ok { entity := ex, externalData := none, enrichment := none }, s')
      | .ok v => (.ok v, s')

/-- Spec wording of the business rules (three ordered rules, first failure
wins), stated for comparison with the source `ValidateExampleBusinessRules`. -/
def specBusinessRules (name email : String) (age : Int) : Option BizErr :=
  if name = "badword1" ∨ name = "badword2" then some .profanityDetected
  else if (goHasSuffix email "@corp.com" || goHasSuffix email "@enterprise.com") ∧ age < 18 then
    some .corporateEmailUnderage
  else if (goHasSuffix email "@vip.com" || goHasSuffix email "@premium.com") ∧ age < 21 then
    some .vipDomainUnderage
  else none

/-- Characters the spec allows in a name: letters, spaces, hyphens,
apostrophes. -/
def isAllowedNameChar (c : Char) : Bool :=
  c.isAlpha || c == ' ' || c == '-' || c == '\''

/-- No two consecutive spaces. -/
def noDoubleSpace : List Char → Bool
  | [] => true
  | [_] => true
  | a :: b :: rest => !(a == ' ' && b == ' ') && noDoubleSpace (b :: rest)

/-- Spec wording of the name rule: 1 to 100 characters, allowed characters
only, no leading/trailing/double spaces, not exactly a blocked word. -/
def specNameOk (name : String) : Bool :=
  let cs := name.toList
  decide (1 ≤ cs.length) && decide (cs.length ≤ 100) &&
  cs.all isAllowedNameChar &&
  !(cs.head? == some ' ') && !(cs.getLast? == some ' ') &&
  noDoubleSpace cs &&
  !(profanityList.any (fun w => name == w))

/-- A call result succeeded (Go error is nil). -/
def callOk {ε α : Type} : Except ε α → Bool
  | .ok _ => true
  | .error _ => false

/-! ### Concrete records used to instantiate the theorems -/

/-- A stored record (two-record store, enumeration order A then B). -/
def exC4a : Example :=
  { id := "id-a", name := "Ann", email := "ann@example.com", age := 30,
    createdAt := 1, updatedAt := 1 }

/-- A second stored record with distinct id and email. -/
def exC4b : Example :=
  { id := "id-b", name := "Ben", email := "ben@example.com", age := 31,
    createdAt := 2, updatedAt := 2 }

/-- A stored record for the uniqueness-invariant witness. -/
def exW1 : Example :=
  { id := "w1", name := "Walter", email := "w1@example.com", age := 40,
    createdAt := 3, updatedAt := 3 }

/-- A record with a fresh id but a colliding email. -/
def exW2 : Example :=
  { id := "w2", name := "Wendy", email := "w1@example.com", age := 41,
    createdAt := 4, updatedAt := 4 }

/-- A stored record for the update/get witnesses. -/
def r0 : Example :=
  { id := "id-1", name := "John", email := "john@example.com", age := 30,
    createdAt := 1, updatedAt := 1 }

/-- The record `r0` after a successful update at instant 7. -/
def r0b : Example :=
  { id := "id-1", name := "Jane", email := "jane@example.com", age := 25,
    createdAt := 1, updatedAt := 7 }

/-- The entity created by `CreateExample` for (John Doe, john at example.com,
30) at instant 7. -/
def e6demo : Example :=
  { id := "ex_joh_8", name := "John Doe", email := "john@example.com", age := 30,
    createdAt := 7, updatedAt := 7 }

/-- A concrete external-data payload. -/
def demoExt : ExternalExampleData :=
  { externalId := "ext-1", metadata := [], score := 10 }

/-- A concrete enrichment payload. -/
def demoEnr : Enrichment := [("segment", "retail")]

/-! ## Helper lemmas -/

lemma one_le_length_of_ne_empty (s : String) (h : s ≠ "") : 1 ≤ s.length := by
  cases s with
  | mk data =>
    cases data with
    | nil => exact absurd rfl h
    | cons c cs => simp [String.length]

/-! ## Claims -/

/-- C2: when the external validator call returns `false` with a nil error,
`ValidateAndCreateExample` creates nothing — the repository state, hence
`Count`, is unchanged — and fails with the use-case validation error
(`ErrUseCaseValidation`), which is a different error from the
external-service error produced when the validation call itself errors. -/
theorem c2_validation_gating (s : RepoState) (name email : String) (age : Int)
    (now : Nat) (fetch : FetchOutcome) (enr : EnrichOutcome) (a : ApiErr) :
    ValidateAndCreateExample s (.ok false) name email age now fetch enr =
      (.error .useCaseValidation, s) ∧
    repoCount (ValidateAndCreateExample s (.ok false) name email age now fetch enr).2 =
      repoCount s ∧
    ValidateAndCreateExample s (.error a) name email age now fetch enr =
      (.error .externalService, s) ∧
    decide (UCErr.useCaseValidation = UCErr.externalService) = false :=
  ⟨rfl, rfl, rfl, by decide⟩

/-- C7: the business rules are exactly the spec's three ordered rules with the
first failure winning — block-list exact match, then corporate-domain with age
under 18, then VIP-domain with age under 21 — and the corporate-underage
scenario (Young User, young at corp.com, age 16) is rejected. -/
theorem c7_business_rules_ordered (name email : String) (age : Int) :
    ValidateExampleBusinessRules name email age = specBusinessRules name email age ∧
    ValidateExampleBusinessRules "Young User" "young@corp.com" 16 =
      some .corporateEmailUnderage := by
  constructor
  · simp only [ValidateExampleBusinessRules, specBusinessRules, containsProfanity,
      isCorporateEmail, isVIPDomain, profanityList, corporateDomains, vipDomains,
      List.any_cons, List.any_nil, Bool.or_false]
    split_ifs <;>
      simp_all [Bool.or_eq_true, Bool.and_eq_true, beq_iff_eq, decide_eq_true_eq]
  · decide

/-- C9: `enrichExample` returns a nil error for every input, attaching each
half independently; when both external calls fail it returns the bare entity
with both metadata fields absent; the per-element fallback branch of
`ListExamples` always coincides with the non-fallback result (so the fallback
is unreachable), and a `Get` succeeds exactly when the underlying service
lookup does — never failing because of enrichment. -/
theorem c9_enrichment_total (e : Example) (fetch : FetchOutcome) (enr : EnrichOutcome)
    (a b : ApiErr) (s : RepoState) (id : String) :
    enrichExample e fetch enr =
      .ok { entity := e, externalData := appliedFetch fetch,
            enrichment := appliedEnrich enr } ∧
    listEnrichStep e fetch enr =
      { entity := e, externalData := appliedFetch fetch,
        enrichment := appliedEnrich enr } ∧
    enrichExample e (.error a) (.error b) =
      .ok { entity := e, externalData := none, enrichment := none } ∧
    callOk (GetExample s id fetch enr) = callOk (GetExampleByID s id) := by
  refine ⟨rfl, rfl, rfl, ?_⟩
  cases h : GetExampleByID s id <;> simp [GetExample, h, callOk, enrichExample]

/-- C10: the requests (Alice, abc1 at example.com) and (Bobby, abc2 at
example.com) are valid, have distinct emails, share the first three email
characters and the name length, so `generateExampleID` collides; the first
`CreateExample` succeeds and the second fails with AlreadyExists by the
repository id-collision check although its email is unique. -/
theorem c10_generated_id_collision :
    decide (("abc1@example.com" : String) = "abc2@example.com") = false ∧
    generateExampleID "Alice" "abc1@example.com" =
      generateExampleID "Bobby" "abc2@example.com" ∧
    CreateExample [] "Alice" "abc1@example.com" 30 5 =
      (.ok { id := "ex_abc_5", name := "Alice", email := "abc1@example.com",
             age := 30, createdAt := 5, updatedAt := 5 },
       [{ id := "ex_abc_5", name := "Alice", email := "abc1@example.com",
          age := 30, createdAt := 5, updatedAt := 5 }]) ∧
    (CreateExample
        [{ id := "ex_abc_5", name := "Alice", email := "abc1@example.com",
           age := 30, createdAt := 5, updatedAt := 5 }]
        "Bobby" "abc2@example.com" 31 6).1 = .error .exampleAlreadyExists := by
  exact ⟨by decide, by decide, by rfl, by rfl⟩

/-- C8 counterexample: the name with a digit, a double space and an
exclamation mark is accepted by the domain validation, the service input
validation and the business rules, yet violates the spec's
character/spacing rules for names — refuting the claim that every accepted
name consists only of letters, spaces, hyphens and apostrophes with no
double spaces. -/
theorem c8_name_rules_counterexample :
    validateExample "Ab3  !" "a@b.com" 30 = none ∧
    validateInput "Ab3  !" "a@b.com" 30 = none ∧
    ValidateExampleBusinessRules "Ab3  !" "a@b.com" 30 = none ∧
    specNameOk "Ab3  !" = false := by
  exact ⟨by decide, by decide, by decide, by decide⟩

/-- C8 amended: the validation layers enforce only that a name is nonempty
and at most 100 characters, and the business rules enforce only that it is
not exactly a blocked word; no character-class or spacing restriction is
enforced anywhere. -/
theorem c8_name_rules_amended (name email : String) (age : Int) :
    (validateInput name email age = none → 1 ≤ name.length ∧ name.length ≤ 100) ∧
    (validateExample name email age = none → 1 ≤ name.length ∧ name.length ≤ 100) ∧
    (ValidateExampleBusinessRules name email age = none →
      name ≠ "badword1" ∧ name ≠ "badword2") := by
  refine ⟨?_, ?_, ?_⟩
  · intro h
    simp only [validateInput] at h
    split_ifs at h with h1 h2
    have := h2
    simp only [Bool.or_eq_true, decide_eq_true_eq] at this
    omega
  · intro h
    simp only [validateExample] at h
    split_ifs at h with h1 h2
    have hlen := one_le_length_of_ne_empty name h1
    omega
  · intro h
    simp only [ValidateExampleBusinessRules] at h
    split_ifs at h with h1
    simp only [containsProfanity, profanityList, List.any_cons, List.any_nil,
      Bool.or_false, Bool.or_eq_true, beq_iff_eq] at h1
    push_neg at h1
    exact h1

/-- The witness for C8's amended claim at a concrete accepted input. -/
theorem c8_name_rules_amended_witness :
    1 ≤ ("John" : String).length ∧ ("John" : String).length ≤ 100 :=
  (c8_name_rules_amended "John" "john@example.com" 30).1 (by decide)

lemma repoList_nat (s : RepoState) (limit offset : Nat) (h1 : 1 ≤ limit) :
    repoList s (limit : Int) (offset : Int) = some ((s.drop offset).take limit) := by
  simp only [repoList]
  split_ifs with h2 h3 h4 h5 h6 h7 h8 <;> try omega
  · rw [List.drop_eq_nil_of_le (by omega : s.length ≤ offset), List.take_nil]
  · rw [List.drop_eq_nil_of_le (by omega : s.length ≤ offset), List.take_nil]
  · have e1 : ((s.length : Int) - (offset : Int)).toNat = s.length - offset := by omega
    have e2 : ((offset : Int)).toNat = offset := by omega
    rw [e1, e2]
    congr 1
    rw [List.take_eq_take]
    simp only [List.length_drop]
    omega
  · have e1 : ((offset : Int) + (limit : Int) - (offset : Int)).toNat = limit := by omega
    have e2 : ((offset : Int)).toNat = offset := by omega
    rw [e1, e2]

lemma collectPages_eq_drop (s : RepoState) (limit : Nat) (h1 : 1 ≤ limit) :
    ∀ steps offset, s.length ≤ offset + steps * limit →
      collectPages s limit offset steps = s.drop offset := by
  intro steps
  induction steps with
  | zero =>
    intro offset h
    simp only [collectPages]
    exact (List.drop_eq_nil_of_le (by omega)).symm
  | succ k ih =>
    intro offset h
    rw [Nat.succ_mul] at h
    simp only [collectPages, repoList_nat s limit offset h1, Option.getD_some]
    rw [ih (offset + limit) (by omega)]
    have hd : s.drop (offset + limit) = (s.drop offset).drop limit := by
      rw [List.drop_drop]
    rw [hd, List.take_append_drop]



/-- C4 counterexample: the same two-record map admits the enumeration orders
(A,B) and (B,A); a limit-1 page at offset 0 under the first order and a page
at offset 1 under the second order (two calls, as the claim permits) both
return record A, so their concatenation duplicates A and omits B — refuting
the claim for List calls made independently against one state, because Go map
iteration order is unspecified and may differ between calls. -/
theorem c4_pagination_counterexample :
    ([exC4a, exC4b] : List Example).Perm [exC4b, exC4a] ∧
    RepoInv [exC4a, exC4b] = true ∧
    repoList [exC4a, exC4b] 1 0 = some [exC4a] ∧
    repoList [exC4b, exC4a] 1 1 = some [exC4a] ∧
    ([exC4a] ++ [exC4a]).count exC4a = 2 ∧
    ([exC4a] ++ [exC4a]).count exC4b = 0 ∧
    ([exC4a, exC4b] : List Example).count exC4b = 1 := by
  refine ⟨List.Perm.swap exC4b exC4a [], by decide, by rfl, by rfl, by decide, by decide, by decide⟩

/-- C4 amended: against one fixed enumeration order of the stored map
(any permutation of the live records), the pages at offsets 0, limit,
2*limit, ... concatenate to exactly the stored records — no duplicates, no
omissions — for every limit in 1..100; Count returns the number of live
records; and an offset beyond the size yields an empty page, not an error. -/
theorem c4_pagination_amended (s ord : RepoState) (limit steps : Nat)
    (hperm : ord.Perm s) (h1 : 1 ≤ limit) (_hmax : limit ≤ 100)
    (hsteps : s.length ≤ steps * limit) :
    collectPages ord limit 0 steps = ord ∧
    (collectPages ord limit 0 steps).Perm s ∧
    repoCount s = s.length ∧
    (∀ offset : Int, (s.length : Int) < offset →
      repoList ord (limit : Int) offset = some []) := by
  have hlen : ord.length = s.length := hperm.length_eq
  have hc : collectPages ord limit 0 steps = ord := by
    have h0 := collectPages_eq_drop ord limit h1 steps 0 (by omega)
    simpa using h0
  refine ⟨hc, by rw [hc]; exact hperm, rfl, ?_⟩
  intro off hoff
  simp only [repoList]
  split_ifs <;> first | rfl | omega

/-- Witness for C4's amended claim on a concrete two-record store. -/
theorem c4_pagination_amended_witness :
    collectPages [exC4a, exC4b] 1 0 2 = [exC4a, exC4b] :=
  (c4_pagination_amended [exC4a, exC4b] [exC4a, exC4b] 1 2 (List.Perm.refl _)
    (by decide) (by decide) (by decide)).1

lemma uniqueKeys_iff (l : List String) :
    uniqueKeys l = true ↔ l.Pairwise (fun a b => a ≠ b) := by
  induction l with
  | nil => simp [uniqueKeys]
  | cons a rest ih =>
    simp only [uniqueKeys, Bool.and_eq_true, List.all_eq_true, bne_iff_ne,
      List.pairwise_cons, ih]
    constructor
    · rintro ⟨h1, h2⟩
      exact ⟨fun b hb => (h1 b hb).symm, h2⟩
    · rintro ⟨h1, h2⟩
      exact ⟨fun b hb => (h1 b hb).symm, h2⟩

lemma repoInv_iff (s : RepoState) :
    RepoInv s = true ↔
      (s.Pairwise (fun a b => a.id ≠ b.id) ∧
       s.Pairwise (fun a b => a.email ≠ b.email)) := by
  simp [RepoInv, uniqueKeys_iff, List.pairwise_map]

lemma repoCreate_ok_inv (s : RepoState) (e : Example) (s' : RepoState)
    (hinv : RepoInv s = true) (h : repoCreate s e = .ok s') : RepoInv s' = true := by
  obtain ⟨hi, he⟩ := (repoInv_iff s).mp hinv
  simp only [repoCreate] at h
  split_ifs at h with hid hem
  injection h with h
  subst h
  simp only [List.any_eq_true, beq_iff_eq, not_exists, not_and] at hid hem
  refine (repoInv_iff _).mpr ⟨?_, ?_⟩
  · rw [List.pairwise_append]
    exact ⟨hi, List.pairwise_singleton _ _,
      fun a ha b hb => by rw [List.mem_singleton] at hb; subst hb; exact hid a ha⟩
  · rw [List.pairwise_append]
    exact ⟨he, List.pairwise_singleton _ _,
      fun a ha b hb => by rw [List.mem_singleton] at hb; subst hb; exact hem a ha⟩

lemma repoCreate_conflict (s : RepoState) (e o : Example) (ho : o ∈ s)
    (hcol : o.id = e.id ∨ o.email = e.email) :
    repoCreate s e = .error .alreadyExists := by
  simp only [repoCreate]
  rcases hcol with h | h
  · rw [if_pos (List.any_eq_true.mpr ⟨o, ho, by simp [h]⟩)]
  · by_cases hid : s.any (fun o => o.id == e.id) = true
    · rw [if_pos hid]
    · rw [if_neg hid, if_pos (List.any_eq_true.mpr ⟨o, ho, by simp [h]⟩)]

lemma runCreates_zero (m : String) :
    ∀ (es : List Example) (s : RepoState), s.any (fun o => o.email == m) = true →
      (∀ e ∈ es, e.email = m) → (runCreates s es).2 = 0 := by
  intro es
  induction es with
  | nil => intro s _ _; rfl
  | cons e rest ih =>
    intro s hs hall
    have hfail : repoCreate s e = .error .alreadyExists := by
      obtain ⟨o, ho, hpo⟩ := List.any_eq_true.mp hs
      apply repoCreate_conflict s e o ho
      right
      simp only [beq_iff_eq] at hpo
      rw [hpo, hall e (by simp)]
    simp only [runCreates, hfail]
    exact ih s hs (fun x hx => hall x (by simp [hx]))

lemma runCreates_le_one (m : String) :
    ∀ (es : List Example) (s : RepoState), (∀ e ∈ es, e.email = m) →
      (runCreates s es).2 ≤ 1 := by
  intro es
  induction es with
  | nil => intro s _; simp [runCreates]
  | cons e rest ih =>
    intro s hall
    simp only [runCreates]
    cases hc : repoCreate s e with
    | error err => exact ih s (fun x hx => hall x (by simp [hx]))
    | ok s' =>
      have hmem : s'.any (fun o => o.email == m) = true := by
        simp only [repoCreate] at hc
        split_ifs at hc
        injection hc with hc
        subst hc
        exact List.any_eq_true.mpr ⟨e, by simp, by simp [hall e (by simp)]⟩
      have hz := runCreates_zero m rest s' hmem (fun x hx => hall x (by simp [hx]))
      simp only []
      omega

lemma symm_ne_email : Symmetric (fun a b : Example => a.email ≠ b.email) :=
  fun _ _ h => h.symm

lemma symm_ne_id : Symmetric (fun a b : Example => a.id ≠ b.id) :=
  fun _ _ h => h.symm

lemma repoUpdate_conflict (s : RepoState) (e x o : Example)
    (hinv : RepoInv s = true)
    (hfind : s.find? (fun a => a.id == e.id) = some x)
    (ho : o ∈ s) (hne : o.id ≠ e.id) (hoe : o.email = e.email) :
    repoUpdate s e = .error .alreadyExists := by
  obtain ⟨hi, he⟩ := (repoInv_iff s).mp hinv
  have hx : x ∈ s := List.mem_of_find?_eq_some hfind
  have hxid : x.id = e.id := by
    have hp := List.find?_some hfind
    simpa [beq_iff_eq] using hp
  have hxe : x.email ≠ e.email := by
    intro hcontra
    have hxo : x ≠ o := fun hq => hne (by rw [← hq, hxid])
    have hdist : x.email ≠ o.email := List.Pairwise.forall symm_ne_email he hx ho hxo
    exact hdist (by rw [hcontra, ← hoe])
  have hb1 : (x.email != e.email) = true := by simp [bne_iff_ne, hxe]
  have hb2 : (s.any fun a => a.id != e.id && a.email == e.email) = true :=
    List.any_eq_true.mpr ⟨o, ho, by simp [bne_iff_ne, hne, hoe]⟩
  simp only [repoUpdate, hfind, hb1, hb2, Bool.and_self, if_pos]

lemma map_replace_ids (s : RepoState) (e : Example) :
    (s.map (fun o => if o.id == e.id then e else o)).map (fun o => o.id) =
      s.map (fun o => o.id) := by
  rw [List.map_map]
  apply List.map_congr_left
  intro o _
  by_cases hb : (o.id == e.id) = true
  · simp only [Function.comp_apply, if_pos hb]
    exact (by simpa [beq_iff_eq] using hb : o.id = e.id).symm
  · simp only [Function.comp_apply, if_neg hb]

lemma pairwise_email_replace (e : Example) :
    ∀ (s : RepoState),
      s.Pairwise (fun a b => a.id ≠ b.id) →
      s.Pairwise (fun a b => a.email ≠ b.email) →
      ((∀ o ∈ s, o.id = e.id → o.email = e.email) ∨
       (∀ o ∈ s, o.id ≠ e.id → o.email ≠ e.email)) →
      (s.map (fun o => if o.id == e.id then e else o)).Pairwise
        (fun a b => a.email ≠ b.email) := by
  intro s
  induction s with
  | nil => intro _ _ _; simp
  | cons a rest ih =>
    intro hid hem hcase
    rw [List.pairwise_cons] at hid hem
    rw [List.map_cons, List.pairwise_cons]
    have hcase' : (∀ o ∈ rest, o.id = e.id → o.email = e.email) ∨
        (∀ o ∈ rest, o.id ≠ e.id → o.email ≠ e.email) := by
      rcases hcase with h | h
      · exact Or.inl (fun o ho => h o (by simp [ho]))
      · exact Or.inr (fun o ho => h o (by simp [ho]))
    refine ⟨?_, ih hid.2 hem.2 hcase'⟩
    intro b' hb'
    rw [List.mem_map] at hb'
    obtain ⟨b, hb, hbeq⟩ := hb'
    subst hbeq
    by_cases hba : (a.id == e.id) = true
    · have haid : a.id = e.id := by simpa [beq_iff_eq] using hba
      have hbid : b.id ≠ e.id := by
        have hab := hid.1 b hb
        rw [← haid]
        exact fun hq => hab hq.symm
      rw [if_pos hba, if_neg (by simpa [beq_iff_eq] using hbid)]
      rcases hcase with h | h
      · have hae : a.email = e.email := h a (by simp) haid
        rw [← hae]
        exact hem.1 b hb
      · exact fun hq => (h b (by simp [hb]) hbid) hq.symm
    · rw [if_neg hba]
      by_cases hbb : (b.id == e.id) = true
      · have hbid : b.id = e.id := by simpa [beq_iff_eq] using hbb
        rw [if_pos hbb]
        rcases hcase with h | h
        · have hbe : b.email = e.email := h b (by simp [hb]) hbid
          rw [← hbe]
          exact hem.1 b hb
        · have haid : a.id ≠ e.id := by simpa [beq_iff_eq] using hba
          exact h a (by simp) haid
      · rw [if_neg hbb]
        exact hem.1 b hb

lemma repoUpdate_ok_inv (s : RepoState) (e : Example) (s' : RepoState)
    (hinv : RepoInv s = true) (h : repoUpdate s e = .ok s') : RepoInv s' = true := by
  obtain ⟨hi, he⟩ := (repoInv_iff s).mp hinv
  simp only [repoUpdate] at h
  cases hfind : s.find? (fun o => o.id == e.id) with
  | none => rw [hfind] at h; simp at h
  | some x =>
    rw [hfind] at h
    simp only [] at h
    split_ifs at h with hguard
    injection h with h
    subst h
    have hx : x ∈ s := List.mem_of_find?_eq_some hfind
    have hxid : x.id = e.id := by
      have hp := List.find?_some hfind
      simpa [beq_iff_eq] using hp
    have hcase : (∀ o ∈ s, o.id = e.id → o.email = e.email) ∨
        (∀ o ∈ s, o.id ≠ e.id → o.email ≠ e.email) := by
      rw [Bool.and_eq_true, not_and_or] at hguard
      rcases hguard with hg | hg
      · left
        have hxe : x.email = e.email := by
          simpa [bne_iff_ne] using hg
        intro o ho hoid
        have hox : o = x := by
          by_contra hne
          exact List.Pairwise.forall symm_ne_id hi ho hx hne (by rw [hoid, ← hxid])
        rw [hox, hxe]
      · right
        intro o ho hoid hoe
        apply hg
        exact List.any_eq_true.mpr ⟨o, ho, by simp [bne_iff_ne, hoid, hoe]⟩
    refine (repoInv_iff _).mpr ⟨?_, pairwise_email_replace e s hi he hcase⟩
    have h1 : ((s.map (fun o => if o.id == e.id then e else o)).map
        (fun o => o.id)).Pairwise (fun a b => a ≠ b) := by
      rw [map_replace_ids]
      exact List.pairwise_map.mpr hi
    exact List.pairwise_map.mp h1

lemma repoDelete_ok_inv (s : RepoState) (id : String) (s' : RepoState)
    (hinv : RepoInv s = true) (h : repoDelete s id = .ok s') : RepoInv s' = true := by
  obtain ⟨hi, he⟩ := (repoInv_iff s).mp hinv
  simp only [repoDelete] at h
  split_ifs at h with hex
  injection h with h
  subst h
  exact (repoInv_iff _).mpr
    ⟨hi.sublist (List.filter_sublist _), he.sublist (List.filter_sublist _)⟩

/-- C1: in every state satisfying the email-uniqueness invariant, Create
fails with AlreadyExists on any id or email collision with a live record (so
at most one Create of any same-email sequence succeeds), Update fails with
AlreadyExists when the new email belongs to a different live record, and
every successful Create, Update or Delete preserves the invariant. -/
theorem c1_email_uniqueness (s : RepoState) (hinv : RepoInv s = true) :
    (∀ e s', repoCreate s e = .ok s' → RepoInv s' = true) ∧
    (∀ e o, o ∈ s → (o.id = e.id ∨ o.email = e.email) →
      repoCreate s e = .error .alreadyExists) ∧
    (∀ (es : List Example) (m : String), (∀ e ∈ es, e.email = m) →
      (runCreates s es).2 ≤ 1) ∧
    (∀ e x, s.find? (fun a => a.id == e.id) = some x →
      ∀ o ∈ s, o.id ≠ e.id → o.email = e.email →
        repoUpdate s e = .error .alreadyExists) ∧
    (∀ e s', repoUpdate s e = .ok s' → RepoInv s' = true) ∧
    (∀ id s', repoDelete s id = .ok s' → RepoInv s' = true) :=
  ⟨fun e s' h => repoCreate_ok_inv s e s' hinv h,
    fun e o ho hcol => repoCreate_conflict s e o ho hcol,
    fun es m hall => runCreates_le_one m es s hall,
    fun e x hfind o ho hne hoe => repoUpdate_conflict s e x o hinv hfind ho hne hoe,
    fun e s' h => repoUpdate_ok_inv s e s' hinv h,
    fun id s' h => repoDelete_ok_inv s id s' hinv h⟩



/-- Witness for C1 on a concrete one-record store with an email collision. -/
theorem c1_email_uniqueness_witness :
    repoCreate [exW1] exW2 = .error .alreadyExists :=
  (c1_email_uniqueness [exW1] (by decide)).2.1 exW2 exW1 (by decide) (Or.inr (by decide))


lemma generateExampleID_ne_empty (name email : String) :
    generateExampleID name email ≠ "" := by
  intro h
  have hd := congrArg String.data h
  simp [generateExampleID, String.data_append] at hd

lemma find?_map_replace (s : RepoState) (e : Example) (id : String)
    (hid : e.id = id) (r : Example)
    (hsome : s.find? (fun o => o.id == id) = some r) :
    (s.map (fun o => if o.id == e.id then e else o)).find?
      (fun o => o.id == id) = some e := by
  induction s with
  | nil => simp at hsome
  | cons a rest ih =>
    rw [List.map_cons]
    by_cases hba : (a.id == e.id) = true
    · rw [if_pos hba]
      exact List.find?_cons_of_pos _ (by simp [beq_iff_eq, hid])
    · rw [if_neg hba]
      have hne : a.id ≠ e.id := by simpa [beq_iff_eq] using hba
      have hpa : (a.id == id) = false := beq_eq_false_iff_ne.mpr (by rw [← hid]; exact hne)
      have hrest : rest.find? (fun o => o.id == id) = some r := by
        rw [List.find?_cons_of_neg _ (by simp [hpa])] at hsome
        exact hsome
      rw [List.find?_cons_of_neg _ (by simp [hpa])]
      exact ih hrest

lemma UpdateExample_shape (s : RepoState) (id name email : String) (age : Int)
    (now : Nat) :
    (∃ err, UpdateExample s id name email age now = (.error err, s)) ∨
    (∃ r e', s.find? (fun o => o.id == id) = some r ∧
      e' = { r with name := name, email := email, age := age, updatedAt := now } ∧
      UpdateExample s id name email age now =
        (.ok e', s.map (fun o => if o.id == e'.id then e' else o))) := by
  by_cases h0 : id = ""
  · exact Or.inl ⟨.invalidID, by simp only [UpdateExample, if_pos h0]⟩
  cases hv : validateInput name email age with
  | some err =>
    exact Or.inl ⟨err, by simp only [UpdateExample, if_neg h0, hv]⟩
  | none =>
  cases hb : ValidateExampleBusinessRules name email age with
  | some r =>
    exact Or.inl ⟨.businessLogicFail r, by simp only [UpdateExample, if_neg h0, hv, hb]⟩
  | none =>
  cases hg : repoGetByID s id with
  | error re =>
    exact Or.inl ⟨mapRepositoryError re, by simp only [UpdateExample, if_neg h0, hv, hb, hg]⟩
  | ok r =>
  have hfind : s.find? (fun o => o.id == id) = some r := by
    simp only [repoGetByID] at hg
    cases hf : s.find? (fun o => o.id == id) with
    | none =>
      simp only [hf] at hg
      exact Except.noConfusion hg
    | some x =>
      simp only [hf, Except.ok.injEq] at hg
      exact congrArg some hg
  cases hcc : checkEmailConflict s r email with
  | some err =>
    exact Or.inl ⟨err, by simp only [UpdateExample, if_neg h0, hv, hb, hg, hcc]⟩
  | none =>
  cases hu : r.update name email age now with
  | error d =>
    exact Or.inl ⟨.invalidInput d,
      by simp only [UpdateExample, updateAndSaveExample, if_neg h0, hv, hb, hg, hcc, hu]⟩
  | ok ex' =>
  have hex' : ex' = { r with name := name, email := email, age := age, updatedAt := now } := by
    simp only [Example.update] at hu
    cases hvex : validateExample name email age with
    | some err =>
      simp only [hvex] at hu
      exact Except.noConfusion hu
    | none =>
      simp only [hvex, Except.ok.injEq] at hu
      exact hu.symm
  have hexid : ex'.id = id := by
    rw [hex']
    have hp := List.find?_some hfind
    simpa [beq_iff_eq] using hp
  cases hru : repoUpdate s ex' with
  | error re =>
    exact Or.inl ⟨mapRepositoryError re,
      by simp only [UpdateExample, updateAndSaveExample, if_neg h0, hv, hb, hg, hcc, hu, hru]⟩
  | ok s2 =>
  have hs2 : s2 = s.map (fun o => if o.id == ex'.id then ex' else o) := by
    simp only [repoUpdate, hexid, hfind] at hru
    split_ifs at hru with hgd
    injection hru with hru
    rw [← hru, hexid]
  refine Or.inr ⟨r, ex', hfind, hex', ?_⟩
  simp only [UpdateExample, updateAndSaveExample, if_neg h0, hv, hb, hg, hcc, hu, hru,
    Prod.mk.injEq, true_and]
  exact hs2

/-- C5: a successful service Update keeps the stored record's createdAt,
sets its updatedAt to the call instant (strictly later than before whenever
the clock advanced), and stores exactly the updated entity; on any failure —
validation, NotFound, or email conflict — the repository state is returned
unchanged, so the stored record is untouched. -/
theorem c5_update_frame (s : RepoState) (id name email : String) (age : Int)
    (now : Nat) (r : Example)
    (hfind : s.find? (fun o => o.id == id) = some r) :
    (∀ e' s', UpdateExample s id name email age now = (.ok e', s') →
      e'.createdAt = r.createdAt ∧ e'.updatedAt = now ∧
      s'.find? (fun o => o.id == id) = some e' ∧
      (r.updatedAt < now → r.updatedAt < e'.updatedAt)) ∧
    (∀ err, (UpdateExample s id name email age now).1 = .error err →
      (UpdateExample s id name email age now).2 = s) := by
  rcases UpdateExample_shape s id name email age now with
    ⟨err, hsh⟩ | ⟨r', e'', hfind', hstruct, hsh⟩
  · constructor
    · intro e' s' h
      rw [hsh] at h
      simp only [Prod.mk.injEq] at h
      exact Except.noConfusion h.1
    · intro err2 _
      rw [hsh]
  · have hrr : r' = r := by
      rw [hfind] at hfind'
      injection hfind' with hq
      exact hq.symm
    rw [hrr] at hstruct
    constructor
    · intro e' s' h
      rw [hsh] at h
      simp only [Prod.mk.injEq] at h
      obtain ⟨h1, h2⟩ := h
      injection h1 with h1
      subst h1
      have hexid : e''.id = id := by
        rw [hstruct]
        have hp := List.find?_some hfind
        simpa [beq_iff_eq] using hp
      refine ⟨by rw [hstruct], by rw [hstruct], ?_, ?_⟩
      · rw [← h2]
        exact find?_map_replace s e'' id hexid r hfind
      · intro hlt
        rw [hstruct]
        exact hlt
    · intro err herr
      rw [hsh] at herr
      exact Except.noConfusion herr



/-- Witness for C5 at a concrete successful update. -/
theorem c5_update_frame_witness :
    r0b.createdAt = r0.createdAt ∧ r0b.updatedAt = 7 ∧
    ([r0b].find? (fun o => o.id == "id-1") = some r0b) ∧
    (r0.updatedAt < 7 → r0.updatedAt < r0b.updatedAt) :=
  (c5_update_frame [r0] "id-1" "Jane" "jane@example.com" 25 7 r0 (by rfl)).1
    r0b [r0b] (by rfl)

lemma find?_append_of_none {p : Example → Bool} (l1 l2 : List Example)
    (h : l1.find? p = none) : (l1 ++ l2).find? p = l2.find? p := by
  induction l1 with
  | nil => simp
  | cons a rest ih =>
    rw [List.find?_cons] at h
    rw [List.cons_append, List.find?_cons]
    cases hpa : p a with
    | true => rw [hpa] at h; simp at h
    | false =>
      rw [hpa] at h
      simp only [cond_false] at h ⊢
      exact ih h

/-- C6: a successful CreateExample followed by GetByID with the new
entity's id returns a value equal to the created entity in all fields, and
that entity has createdAt equal to updatedAt. -/
theorem c6_round_trip (s : RepoState) (name email : String) (age : Int) (now : Nat)
    (e : Example) (s' : RepoState)
    (h : CreateExample s name email age now = (.ok e, s')) :
    GetExampleByID s' e.id = .ok e ∧ e.createdAt = e.updatedAt := by
  simp only [CreateExample] at h
  cases hv : validateInput name email age with
  | some err => simp only [hv] at h; exact Prod.noConfusion h (fun h1 _ => Except.noConfusion h1)
  | none =>
  simp only [hv] at h
  cases hb : ValidateExampleBusinessRules name email age with
  | some r => simp only [hb] at h; exact Prod.noConfusion h (fun h1 _ => Except.noConfusion h1)
  | none =>
  simp only [hb] at h
  cases hn : NewExample (generateExampleID name email) name email age now with
  | error d => simp only [hn] at h; exact Prod.noConfusion h (fun h1 _ => Except.noConfusion h1)
  | ok ex =>
  simp only [hn] at h
  cases hge : repoGetByEmail s email with
  | ok other => simp only [hge] at h; exact Prod.noConfusion h (fun h1 _ => Except.noConfusion h1)
  | error re =>
  simp only [hge] at h
  cases hc : repoCreate s ex with
  | error re2 => simp only [hc] at h; exact Prod.noConfusion h (fun h1 _ => Except.noConfusion h1)
  | ok s2 =>
  simp only [hc, Prod.mk.injEq] at h
  obtain ⟨h1, h2⟩ := h
  injection h1 with h1
  subst h1
  subst h2
  -- structure of the created entity
  have hex : ex = Example.mk (generateExampleID name email) name email age now now := by
    simp only [NewExample] at hn
    cases hvex : validateExample name email age with
    | some err => simp only [hvex] at hn; exact Except.noConfusion hn
    | none =>
      simp only [hvex, Except.ok.injEq] at hn
      exact hn.symm
  -- repoCreate success facts
  simp only [repoCreate] at hc
  split_ifs at hc with hid2 hem2
  injection hc with hc
  subst hc
  constructor
  · have hne : ex.id ≠ "" := by rw [hex]; exact generateExampleID_ne_empty name email
    simp only [GetExampleByID, if_neg hne, repoGetByID]
    have hnone : s.find? (fun o => o.id == ex.id) = none := by
      rw [List.find?_eq_none]
      intro x hx
      simp only [beq_iff_eq]
      simp only [List.any_eq_true, beq_iff_eq, not_exists, not_and] at hid2
      exact hid2 x hx
    rw [find?_append_of_none _ _ hnone]
    simp
  · rw [hex]


/-- Witness for C6 at a concrete create from the empty store. -/
theorem c6_round_trip_witness :
    GetExampleByID [e6demo] e6demo.id = .ok e6demo ∧
    e6demo.createdAt = e6demo.updatedAt :=
  c6_round_trip [] "John Doe" "john@example.com" 30 7 e6demo [e6demo] (by rfl)



/-- C3: for a Get (by id or by email) whose base lookup succeeds, the two
external call outcomes are applied independently — when exactly one of
GetExampleData / EnrichExample fails, the result carries exactly the
successful half's data, omits the failed half, and the Get still succeeds. -/
theorem c3_enrichment_independence (s : RepoState) (id email : String)
    (ex ex2 : Example) (d : ExternalExampleData) (m : Enrichment) (a a2 : ApiErr)
    (hid : GetExampleByID s id = .ok ex) :
    GetExample s id (.ok (some d)) (.error a) =
      .ok { entity := ex, externalData := some d, enrichment := none } ∧
    GetExample s id (.error a2) (.ok (some m)) =
      .ok { entity := ex, externalData := none, enrichment := some m } ∧
    (GetExampleByEmail s email = .ok ex2 →
      GetExampleByEmailUC s email (.ok (some d)) (.error a) =
        .ok { entity := ex2, externalData := some d, enrichment := none } ∧
      GetExampleByEmailUC s email (.error a2) (.ok (some m)) =
        .ok { entity := ex2, externalData := none, enrichment := some m }) := by
  refine ⟨?_, ?_, fun hem => ⟨?_, ?_⟩⟩ <;>
    simp only [GetExample, GetExampleByEmailUC, hid, *, enrichExample,
      appliedFetch, appliedEnrich]

/-- Witness for C3 at a concrete store and a failing enrichment call. -/
theorem c3_enrichment_independence_witness :
    GetExample [r0] "id-1" (.ok (some demoExt)) (.error .timeout) =
      .ok { entity := r0, externalData := some demoExt, enrichment := none } :=
  (c3_enrichment_independence [r0] "id-1" "x" r0 r0 demoExt demoEnr .timeout .timeout
    (by rfl)).1
